import Mathlib

/-!
Verification development for the MoA (Mixture-of-Agents) chatbot turn
pipeline (`bot.py`).  The definitions below shallowly embed the program:
the mutex-protected `SharedValue` cell, the background timer loop
(`run_timer`), the working-set computation for the reference fan-out,
the construction of the fan-out dataset and of the aggregation request,
the streaming accumulator, and the try/except/finally structure of one
chat turn inside `main`.  External collaborators (the completion client
in `utils.py`, the Streamlit UI) are modelled as oracles passed in as
arguments.  Time is modelled with rationals, and Python dict/list
aliasing (for the conversation-snapshot claim) with an explicit heap of
addresses.
-/

namespace MoA

/-- A conversation message, the dict `{"role": ..., "content": ...}`. -/
structure Message where
  role : String
  content : String
deriving DecidableEq, Repr

/-- Operations performed on a `SharedValue` cell.  The lock in
`SharedValue.set` / `SharedValue.get` serializes concurrent accesses, so
any concurrent execution is equivalent to a sequence of atomic
operations, which is what a `List SVOp` records. -/
inductive SVOp where
  | set (v : ℚ) : SVOp
  | get : SVOp
deriving DecidableEq, Repr

/-- The `SharedValue` class: a cell holding a float (modelled as `ℚ`),
initial value 0.0.  The lock is reflected in treating each operation as
atomic. -/
structure SharedValue where
  value : ℚ
deriving DecidableEq, Repr

/-- `SharedValue.__init__` with the default `initial_value=0.0`. -/
def SharedValue.init : SharedValue := ⟨0⟩

/-- `SharedValue.set`: overwrite the stored value (under the lock). -/
def SharedValue.set (_ : SharedValue) (newValue : ℚ) : SharedValue :=
  ⟨newValue⟩

/-- `SharedValue.get`: read the stored value (under the lock). -/
def SharedValue.get (s : SharedValue) : ℚ :=
  s.value

/-- Run a sequence of atomic cell operations from a given cell state. -/
def applyOps (s : SharedValue) : List SVOp → SharedValue
  | [] => s
  | SVOp.set v :: rest => applyOps (s.set v) rest
  | SVOp.get :: rest => applyOps s rest

/-- The value passed to the most recent `set` in an operation sequence,
if any `set` occurred. -/
def mostRecentSet (ops : List SVOp) : Option ℚ :=
  ops.reverse.findSome? fun op =>
    match op with
    | SVOp.set v => some v
    | SVOp.get => none

/-- `run_timer` as a discrete state machine.  One loop iteration is
`check` (the `stop_event.is_set()` test), then `emit` (the
`elapsed_time.set(...)` write), then `sleeping` (the `time.sleep(0.1)`
polling interval); `done` is the terminated thread. -/
inductive TimerPC where
  | check : TimerPC
  | emit : TimerPC
  | sleeping : TimerPC
  | done : TimerPC
deriving DecidableEq, Repr

/-- One step of the timer loop given the current stop-event flag. -/
def timerStep (stop : Bool) : TimerPC → TimerPC
  | TimerPC.check => if stop then TimerPC.done else TimerPC.emit
  | TimerPC.emit => TimerPC.sleeping
  | TimerPC.sleeping => TimerPC.check
  | TimerPC.done => TimerPC.done

/-- The timer's program counter after `n` steps, when the stop event
becomes (and stays) set from step `stopAt` on.  The thread starts at the
`while` condition test. -/
def timerAt (stopAt : ℕ) : ℕ → TimerPC
  | 0 => TimerPC.check
  | n + 1 => timerStep (decide (stopAt ≤ n)) (timerAt stopAt n)

/-- The value the timer writes at its `k`-th step:
`time.time() - start_time`, where `clock` samples the wall clock at each
step and `clock 0` is the `start_time` recorded on entry to `run_timer`. -/
def timerWriteValue (clock : ℕ → ℚ) (k : ℕ) : ℚ :=
  clock k - clock 0

/-- The sequence of values written to the shared cell during one run of
the timer that is cancelled at step `stopAt`: the writes happen exactly
at the steps whose program counter is `emit`. -/
def timerWrites (clock : ℕ → ℚ) (stopAt : ℕ) : List ℚ :=
  ((List.range (stopAt + 1)).filter fun k => timerAt stopAt k = TimerPC.emit).map
    (timerWriteValue clock)

/-- The working reference-model set:
`selected_models = list(set(st.session_state.selected_models) - set([model]))`
followed by the fallback `if not selected_models: selected_models = [model]`. -/
def workingSet (selected : List String) (model : String) : List String :=
  let s : List String := selected.dedup.filter fun m => m ≠ model
  if s = [] then [model] else s

/-- One row of the fan-out dataset built by `datasets.Dataset.from_dict`
on `{"instruction": ..., "references": ..., "model": ...}`. -/
structure FanOutRow where
  instruction : List Message
  references : List String
  model : String
deriving DecidableEq, Repr

/-- The dataset handed to `eval_set.map`: one row per selected model,
each with the full conversation as instruction and an empty reference
list. -/
def buildFanOutData (messages : List Message) (selected : List String) :
    List FanOutRow :=
  selected.map fun m => ⟨messages, [], m⟩

/-- A completion call issued to the external client
(`generate_with_references` in `utils.py`): model, messages, reference
context, temperature, max tokens. -/
structure RefCall where
  model : String
  instruction : List Message
  references : List String
  temperature : ℚ
  maxTokens : ℕ
deriving DecidableEq, Repr

/-- The number of reference-generation rounds: `for i_round in range(1)`. -/
def numRounds : ℕ := 1

/-- `eval_set.map(partial(process_fn, ...))`: each row leads to one
completion call through the oracle; as in `datasets.map`, a failure of
any worker fails the whole map, and on success the outputs are collected
in row order. -/
def fanOut (oracle : RefCall → Except String String) :
    List FanOutRow → ℚ → ℕ → Except String (List String)
  | [], _, _ => Except.ok []
  | r :: rest, temperature, maxTokens =>
    match oracle ⟨r.model, r.instruction, r.references, temperature, maxTokens⟩ with
    | Except.error e => Except.error e
    | Except.ok out =>
      match fanOut oracle rest temperature maxTokens with
      | Except.error e => Except.error e
      | Except.ok outs => Except.ok (out :: outs)

/-- The request handed to the aggregator model: the call to
`generate_with_references(model=model, messages=st.session_state.messages,
references=references, generate_fn=generate_together_stream)` together
with its sampling parameters. -/
structure AggRequest where
  model : String
  messages : List Message
  references : List String
  temperature : ℚ
  maxTokens : ℕ
deriving DecidableEq, Repr

/-- One event of the aggregator's stream: either a chunk whose
`choices[0].delta.content` may be `None`, or the stream raising. -/
inductive StreamEvent where
  | chunk (content : Option String) : StreamEvent
  | fail (msg : String) : StreamEvent
deriving DecidableEq, Repr

/-- The Python error raised by `full_response += None`. -/
def typeErrorMsg : String :=
  "TypeError: can only concatenate str (not \x22NoneType\x22) to str"

/-- The `for chunk in output` accumulation loop:
`full_response += chunk.choices[0].delta.content`.  Returns the final
accumulator or the raised error, together with the number of chunks that
were successfully appended (each such append is followed by a
`elapsed_time.get()` for the timer display). -/
def consumeStream : List StreamEvent → String → ℕ →
    Except String String × ℕ
  | [], acc, n => (Except.ok acc, n)
  | StreamEvent.chunk (some s) :: rest, acc, n =>
      consumeStream rest (acc ++ s) (n + 1)
  | StreamEvent.chunk none :: _, _, n => (Except.error typeErrorMsg, n)
  | StreamEvent.fail msg :: _, _, n => (Except.error msg, n)

/-- The error notice shown by `st.error` in the `except` clause. -/
def errorNotice (e : String) : String :=
  "An error occurred during the generation process: " ++ e

/-- Everything one turn of `main` produces or does that the claims talk
about: the final conversation, the reported error (if any), whether the
`finally` clause signalled the stop event and joined the timer thread,
the completion calls issued by the fan-out, the aggregation request (if
the turn got that far), and the controller's own operations on the
shared elapsed-time cell. -/
structure TurnOutcome where
  messages : List Message
  errorReported : Option String
  stopSignaled : Bool
  joined : Bool
  refCalls : List RefCall
  aggRequest : Option AggRequest
  sharedOps : List SVOp
deriving Repr

/-- The completion calls issued by `eval_set.map` for one round: one per
row of the fan-out dataset, carrying that row's instruction and
reference context and the turn's sampling parameters. -/
def turnCalls (messages : List Message) (ws : List String)
    (temperature : ℚ) (maxTokens : ℕ) : List RefCall :=
  (buildFanOutData messages ws).map fun r =>
    RefCall.mk r.model r.instruction r.references temperature maxTokens

/-- One chat turn of `main` (lines 240-313), after the user message has
been appended: compute the working set, build the fan-out dataset, run
the single reference round, build the aggregation request, consume the
aggregator's stream, and append the assistant message on success; any
exception is caught by the `except` clause and reported, and the
`finally` clause always sets the stop event and joins the timer thread. -/
def runTurn (messages : List Message) (selected : List String)
    (model : String) (temperature : ℚ) (maxTokens : ℕ)
    (oracle : RefCall → Except String String)
    (events : List StreamEvent) : TurnOutcome :=
  match fanOut oracle (buildFanOutData messages (workingSet selected model))
      temperature maxTokens with
  | Except.error e =>
      { messages := messages
        errorReported := some (errorNotice e)
        stopSignaled := true
        joined := true
        refCalls := turnCalls messages (workingSet selected model) temperature maxTokens
        aggRequest := none
        sharedOps := [] }
  | Except.ok references =>
      match consumeStream events "" 0 with
      | (Except.ok fullResponse, n) =>
          { messages := messages ++ [⟨"assistant", fullResponse⟩]
            errorReported := none
            stopSignaled := true
            joined := true
            refCalls := turnCalls messages (workingSet selected model) temperature maxTokens
            aggRequest := some ⟨model, messages, references, temperature, maxTokens⟩
            sharedOps := SVOp.get :: List.replicate n SVOp.get }
      | (Except.error e, n) =>
          { messages := messages
            errorReported := some (errorNotice e)
            stopSignaled := true
            joined := true
            refCalls := turnCalls messages (workingSet selected model) temperature maxTokens
            aggRequest := some ⟨model, messages, references, temperature, maxTokens⟩
            sharedOps := SVOp.get :: List.replicate n SVOp.get }

/-- The ambient Streamlit session state fields that exist when the
aggregation request is built; fields beyond the conversation and the
model selection are carried to state that the request does not depend on
them. -/
structure SessionState where
  userEmail : Option String
  userSystemPrompt : String
  conversations : List (List Message)
  messages : List Message
  selectedModels : List String

/-- The aggregation request as a function of the session state, the
aggregator choice, the sampling parameters and the per-model reference
outputs (`outs m` is the fan-out output of model `m`):
`references = [item["output"] for item in eval_set]` in working-set
order, then the `generate_with_references` call of line 283. -/
def buildAggRequest (s : SessionState) (model : String)
    (temperature : ℚ) (maxTokens : ℕ) (outs : String → String) : AggRequest :=
  let ws := workingSet s.selectedModels model
  ⟨model, s.messages, ws.map outs, temperature, maxTokens⟩

/-! ### Aliasing model for the conversation snapshots

Python lists hold references to message dicts; `list.copy()` copies the
list of references but shares the dict objects.  To state aliasing facts
we model message dicts as heap objects at explicit addresses. -/

/-- The address of a message dict object. -/
abbrev Addr := ℕ

/-- A message dict object living on the heap. -/
structure MsgObj where
  role : String
  content : String
deriving DecidableEq, Repr

/-- An entry of `st.session_state.conversations`:
`{"first_question": prompt, "messages": st.session_state.messages.copy()}`.
The `messages` field is the shallow-copied list of object references. -/
structure SavedConv where
  firstQuestion : String
  messages : List Addr
deriving DecidableEq, Repr

/-- The session state pieces involved in snapshotting, with the live
conversation as a list of heap addresses. -/
structure Session where
  heap : Addr → MsgObj
  messages : List Addr
  conversations : List SavedConv

/-- The snapshot taken at the first user message of a conversation
(lines 233-238): append `{"first_question": prompt, "messages":
st.session_state.messages.copy()}`; the copy shares every message
object with the live list. -/
def saveFirstQuestion (s : Session) (prompt : String) : Session :=
  { s with conversations := s.conversations ++ [⟨prompt, s.messages⟩] }

/-- The `default_system_prompt` string of `bot.py`. -/
def defaultSystemPrompt : String :=
  "You are an AI assistant named MoA, powered by a Mixture of Agents architecture. \nYour role is to provide helpful, accurate, and ethical responses to user queries. \nYou have access to multiple language models and can leverage their combined knowledge to generate comprehensive answers. \nAlways strive to be respectful, avoid harmful content, and admit when you\x27re unsure about something."

/-- `combined_prompt = f"{default_system_prompt}\n\nAdditional instructions: {user_prompt}"`. -/
def combinedPrompt (userPrompt : String) : String :=
  defaultSystemPrompt ++ "\n\nAdditional instructions: " ++ userPrompt

/-- The `Update System Instructions` button handler (lines 192-196):
`st.session_state.messages[0]["content"] = combined_prompt` mutates the
message object at the head address in place. -/
def updateSystemInstructions (s : Session) (userPrompt : String) : Session :=
  match s.messages.head? with
  | none => s
  | some a0 =>
      { s with heap := fun a =>
          if a = a0 then ⟨(s.heap a0).role, combinedPrompt userPrompt⟩
          else s.heap a }

/-! ### Helper lemmas -/

lemma dedupFilter_toFinset (R : List String) (a : String) :
    (R.dedup.filter fun m => m ≠ a).toFinset = R.toFinset \ {a} := by
  ext x
  simp [List.mem_filter, List.mem_dedup, Finset.mem_sdiff]

lemma dedupFilter_eq_nil_iff (R : List String) (a : String) :
    (R.dedup.filter fun m => m ≠ a) = [] ↔ R.toFinset \ {a} = ∅ := by
  rw [← dedupFilter_toFinset, List.toFinset_eq_empty_iff]

lemma workingSet_nodup (R : List String) (a : String) : (workingSet R a).Nodup := by
  rw [workingSet]
  split
  · exact List.nodup_singleton a
  · exact R.nodup_dedup.filter _

lemma mostRecentSet_cons (op : SVOp) (ops : List SVOp) :
    mostRecentSet (op :: ops)
      = (mostRecentSet ops).or
          (match op with | SVOp.set v => some v | SVOp.get => none) := by
  cases op <;> simp [mostRecentSet, List.findSome?_append, List.findSome?]

lemma stringFoldl_append (l : List String) :
    ∀ a : String, List.foldl (fun r s => r ++ s) a l
      = a ++ List.foldl (fun r s => r ++ s) "" l := by
  induction l with
  | nil => intro a; simp
  | cons x xs ih =>
    intro a
    simp only [List.foldl_cons]
    rw [ih (a ++ x), ih ("" ++ x)]
    simp [String.append_assoc]

lemma stringJoin_cons (c : String) (l : List String) :
    String.join (c :: l) = c ++ String.join l := by
  simp only [String.join, List.foldl_cons]
  rw [stringFoldl_append l ("" ++ c)]
  simp

lemma consumeStream_all_some (contents : List String) (acc : String) (n : ℕ) :
    consumeStream (contents.map fun s => StreamEvent.chunk (some s)) acc n
      = (Except.ok (acc ++ String.join contents), n + contents.length) := by
  induction contents generalizing acc n with
  | nil => simp [consumeStream, String.join]
  | cons c rest ih =>
    simp only [List.map_cons, consumeStream, ih, List.length_cons,
      stringJoin_cons, Prod.mk.injEq]
    constructor
    · simp [String.append_assoc]
    · omega

lemma consumeStream_hits_none (pre post : List StreamEvent) (acc : String) (n : ℕ)
    (hpre : ∀ e ∈ pre, ∃ s, e = StreamEvent.chunk (some s)) :
    consumeStream (pre ++ StreamEvent.chunk none :: post) acc n
      = (Except.error typeErrorMsg, n + pre.length) := by
  induction pre generalizing acc n with
  | nil => simp [consumeStream]
  | cons e rest ih =>
    obtain ⟨s, rfl⟩ := hpre e (List.mem_cons_self e rest)
    show consumeStream (StreamEvent.chunk (some s) :: (rest ++ StreamEvent.chunk none :: post)) acc n = _
    rw [consumeStream]
    rw [ih (acc ++ s) (n + 1) fun e he => hpre e (List.mem_cons_of_mem _ he)]
    simp only [Prod.mk.injEq, List.length_cons, true_and]
    omega

lemma runTurn_refCalls (msgs : List Message) (sel : List String) (model : String)
    (t : ℚ) (k : ℕ) (oracle : RefCall → Except String String)
    (events : List StreamEvent) :
    (runTurn msgs sel model t k oracle events).refCalls
      = turnCalls msgs (workingSet sel model) t k := by
  cases hf : fanOut oracle (buildFanOutData msgs (workingSet sel model)) t k with
  | error e => simp [runTurn, hf]
  | ok refs =>
    rcases hc : consumeStream events "" 0 with ⟨r, n⟩
    cases r <;> simp [runTurn, hf, hc]

lemma turnCalls_eq (msgs : List Message) (ws : List String) (t : ℚ) (k : ℕ) :
    turnCalls msgs ws t k = ws.map fun m => RefCall.mk m msgs [] t k := by
  simp [turnCalls, buildFanOutData, List.map_map, Function.comp]

lemma runTurn_stop_join (msgs : List Message) (sel : List String) (model : String)
    (t : ℚ) (k : ℕ) (oracle : RefCall → Except String String)
    (events : List StreamEvent) :
    (runTurn msgs sel model t k oracle events).stopSignaled = true
    ∧ (runTurn msgs sel model t k oracle events).joined = true := by
  cases hf : fanOut oracle (buildFanOutData msgs (workingSet sel model)) t k with
  | error e => simp [runTurn, hf]
  | ok refs =>
    rcases hc : consumeStream events "" 0 with ⟨r, n⟩
    cases r <;> simp [runTurn, hf, hc]

lemma runTurn_sharedOps_get (msgs : List Message) (sel : List String) (model : String)
    (t : ℚ) (k : ℕ) (oracle : RefCall → Except String String)
    (events : List StreamEvent) :
    ∀ op ∈ (runTurn msgs sel model t k oracle events).sharedOps, op = SVOp.get := by
  cases hf : fanOut oracle (buildFanOutData msgs (workingSet sel model)) t k with
  | error e => simp [runTurn, hf]
  | ok refs =>
    rcases hc : consumeStream events "" 0 with ⟨r, n⟩
    cases r <;>
      · simp only [runTurn, hf, hc]
        intro op hop
        rcases List.mem_cons.1 hop with h | h
        · exact h
        · exact List.eq_of_mem_replicate h

lemma timerStep_true_ne_emit (pc : TimerPC) : timerStep true pc ≠ TimerPC.emit := by
  cases pc <;> simp [timerStep]

lemma timerAt_done_mono (stopAt n : ℕ) (h : timerAt stopAt n = TimerPC.done) :
    ∀ j, timerAt stopAt (n + j) = TimerPC.done := by
  intro j
  induction j with
  | zero => exact h
  | succ j ih =>
    show timerAt stopAt (n + j + 1) = TimerPC.done
    have hs : timerAt stopAt (n + j + 1)
        = timerStep (decide (stopAt ≤ n + j)) (timerAt stopAt (n + j)) := rfl
    rw [hs, ih]
    cases decide (stopAt ≤ n + j) <;> rfl

lemma timerAt_ne_emit (stopAt n : ℕ) (h : stopAt + 1 ≤ n) :
    timerAt stopAt n ≠ TimerPC.emit := by
  obtain ⟨j, rfl⟩ : ∃ j, n = j + 1 := ⟨n - 1, by omega⟩
  have hj : stopAt ≤ j := by omega
  have : timerAt stopAt (j + 1) = timerStep (decide (stopAt ≤ j)) (timerAt stopAt j) := rfl
  rw [this, decide_eq_true hj]
  exact timerStep_true_ne_emit _

lemma timerAt_ne_sleeping (stopAt n : ℕ) (h : stopAt + 2 ≤ n) :
    timerAt stopAt n ≠ TimerPC.sleeping := by
  obtain ⟨j, rfl⟩ : ∃ j, n = j + 1 := ⟨n - 1, by omega⟩
  have hj : stopAt ≤ j := by omega
  have hje : timerAt stopAt j ≠ TimerPC.emit := timerAt_ne_emit stopAt j (by omega)
  have : timerAt stopAt (j + 1) = timerStep (decide (stopAt ≤ j)) (timerAt stopAt j) := rfl
  rw [this, decide_eq_true hj]
  cases hpc : timerAt stopAt j <;> simp [timerStep]
  exact absurd hpc hje

lemma timerAt_done_after (stopAt n : ℕ) (h : stopAt + 3 ≤ n) :
    timerAt stopAt n = TimerPC.done := by
  have h2e : timerAt stopAt (stopAt + 2) ≠ TimerPC.emit :=
    timerAt_ne_emit stopAt (stopAt + 2) (by omega)
  have h2s : timerAt stopAt (stopAt + 2) ≠ TimerPC.sleeping :=
    timerAt_ne_sleeping stopAt (stopAt + 2) (by omega)
  have h3 : timerAt stopAt (stopAt + 3) = TimerPC.done := by
    have : timerAt stopAt (stopAt + 3)
        = timerStep (decide (stopAt ≤ stopAt + 2)) (timerAt stopAt (stopAt + 2)) := rfl
    rw [this, decide_eq_true (by omega)]
    cases hpc : timerAt stopAt (stopAt + 2) <;> simp [timerStep]
    · exact absurd hpc h2e
    · exact absurd hpc h2s
  obtain ⟨j, rfl⟩ : ∃ j, n = (stopAt + 3) + j := ⟨n - (stopAt + 3), by omega⟩
  exact timerAt_done_mono stopAt (stopAt + 3) h3 j

/-! ### Claim theorems -/

/-- C1: for every non-empty selected reference-model list `R` and
aggregator model `a`, the working set actually used for fan-out equals
`R` minus `{a}` (as a set of models) whenever that difference is
non-empty, and whenever `R` minus `{a}` is empty the working set is the
singleton `[a]`. -/
theorem workingSet_minus_aggregator (R : List String) (a : String) (_hR : R ≠ []) :
    ((R.toFinset \ {a} : Finset String) ≠ ∅ →
      (workingSet R a).toFinset = R.toFinset \ {a})
    ∧ ((R.toFinset \ {a} : Finset String) = ∅ → workingSet R a = [a]) := by
  constructor
  · intro hne
    rw [workingSet, if_neg (fun h => hne ((dedupFilter_eq_nil_iff R a).mp h))]
    exact dedupFilter_toFinset R a
  · intro he
    rw [workingSet, if_pos ((dedupFilter_eq_nil_iff R a).mpr he)]

theorem workingSet_minus_aggregator_witness :
    (workingSet ["M1", "M2"] "M1").toFinset
      = (["M1", "M2"] : List String).toFinset \ {"M1"} :=
  (workingSet_minus_aggregator ["M1", "M2"] "M1" (by decide)).1 (by decide)

/-- C2: on a successful turn (fan-out succeeded and every stream chunk
carries a text fragment), the assistant message appended to the
conversation has exactly the concatenation, in arrival order, of all
fragments yielded by the aggregator's stream, and no error is
reported. -/
theorem final_message_is_fragment_concat (msgs : List Message) (sel : List String)
    (model : String) (t : ℚ) (k : ℕ) (oracle : RefCall → Except String String)
    (refs : List String) (contents : List String)
    (hfan : fanOut oracle (buildFanOutData msgs (workingSet sel model)) t k
      = Except.ok refs) :
    (runTurn msgs sel model t k oracle
        (contents.map fun s => StreamEvent.chunk (some s))).messages
      = msgs ++ [⟨"assistant", String.join contents⟩]
    ∧ (runTurn msgs sel model t k oracle
        (contents.map fun s => StreamEvent.chunk (some s))).errorReported = none := by
  constructor <;> simp [runTurn, hfan, consumeStream_all_some]

theorem final_message_is_fragment_concat_witness :
    (runTurn [⟨"user", "Hello"⟩] ["M1"] "M3" 0 1 (fun _ => Except.ok "Hi")
        (["Hel", "lo!"].map fun s => StreamEvent.chunk (some s))).messages
      = [⟨"user", "Hello"⟩] ++ [⟨"assistant", String.join ["Hel", "lo!"]⟩] :=
  (final_message_is_fragment_concat [⟨"user", "Hello"⟩] ["M1"] "M3" 0 1
    (fun _ => Except.ok "Hi") ["Hi"] ["Hel", "lo!"] rfl).1

/-- C3: whenever the fan-out fails or the aggregator stream fails, the
turn reports an error and the conversation is left exactly as it was: in
particular no partial assistant message built from already-accumulated
fragments is appended. -/
theorem failure_leaves_conversation_unchanged (msgs : List Message)
    (sel : List String) (model : String) (t : ℚ) (k : ℕ)
    (oracle : RefCall → Except String String) (events : List StreamEvent)
    (hfail : (∃ e, fanOut oracle (buildFanOutData msgs (workingSet sel model)) t k
        = Except.error e)
      ∨ ∃ e n, consumeStream events "" 0 = (Except.error e, n)) :
    (runTurn msgs sel model t k oracle events).messages = msgs
    ∧ (runTurn msgs sel model t k oracle events).errorReported.isSome = true := by
  cases hf : fanOut oracle (buildFanOutData msgs (workingSet sel model)) t k with
  | error e => constructor <;> simp [runTurn, hf]
  | ok refs =>
    rcases hfail with ⟨e, he⟩ | ⟨e, n, hc⟩
    · rw [hf] at he; cases he
    · constructor <;> simp [runTurn, hf, hc]

theorem failure_leaves_conversation_unchanged_witness :
    (runTurn [⟨"user", "Hello"⟩] ["M1"] "M3" 0 1
        (fun _ => Except.error "boom") []).messages = [⟨"user", "Hello"⟩]
    ∧ (runTurn [⟨"user", "Hello"⟩] ["M1"] "M3" 0 1
        (fun _ => Except.error "boom") []).errorReported.isSome = true :=
  failure_leaves_conversation_unchanged [⟨"user", "Hello"⟩] ["M1"] "M3" 0 1
    (fun _ => Except.error "boom") [] (Or.inl ⟨"boom", rfl⟩)

/-- C5: in every turn each model of the working set is issued exactly
one completion call (`numRounds = 1` reference-generation round), every
such call carries the full conversation as instruction, and its
reference context is empty, so no reference model sees another's
output. -/
theorem one_call_per_model_no_references (msgs : List Message) (sel : List String)
    (model : String) (t : ℚ) (k : ℕ) (oracle : RefCall → Except String String)
    (events : List StreamEvent) :
    (runTurn msgs sel model t k oracle events).refCalls.map RefCall.model
      = workingSet sel model
    ∧ (∀ m ∈ workingSet sel model,
        ((runTurn msgs sel model t k oracle events).refCalls.map RefCall.model).count m
          = numRounds)
    ∧ ∀ c ∈ (runTurn msgs sel model t k oracle events).refCalls,
        c.instruction = msgs ∧ c.references = [] := by
  have hcalls := runTurn_refCalls msgs sel model t k oracle events
  have hmap : (runTurn msgs sel model t k oracle events).refCalls.map RefCall.model
      = workingSet sel model := by
    rw [hcalls, turnCalls_eq, List.map_map]
    simp [Function.comp_def]
  refine ⟨hmap, ?_, ?_⟩
  · intro m hm
    rw [hmap, numRounds]
    exact List.count_eq_one_of_mem (workingSet_nodup sel model) hm
  · intro c hc
    rw [hcalls, turnCalls_eq] at hc
    obtain ⟨m, _, rfl⟩ := List.mem_map.1 hc
    exact ⟨rfl, rfl⟩

theorem one_call_per_model_no_references_witness :
    (((runTurn [⟨"user", "Hello"⟩] ["M1", "M2"] "M3" 0 1 (fun _ => Except.ok "r")
        []).refCalls.map RefCall.model).count "M1" = numRounds)
    ∧ ((runTurn [⟨"user", "Hello"⟩] ["M1", "M2"] "M3" 0 1 (fun _ => Except.ok "r")
        []).refCalls.map RefCall.model = workingSet ["M1", "M2"] "M3") :=
  ⟨(one_call_per_model_no_references [⟨"user", "Hello"⟩] ["M1", "M2"] "M3" 0 1
      (fun _ => Except.ok "r") []).2.1 "M1" (by decide),
   (one_call_per_model_no_references [⟨"user", "Hello"⟩] ["M1", "M2"] "M3" 0 1
      (fun _ => Except.ok "r") []).1⟩

lemma fanOut_pure (outs : String → String) (rows : List FanOutRow)
    (t : ℚ) (k : ℕ) :
    fanOut (fun c => Except.ok (outs c.model)) rows t k
      = Except.ok (rows.map fun r => outs r.model) := by
  induction rows with
  | nil => rfl
  | cons r rest ih => simp [fanOut, ih]

lemma runTurn_aggRequest_pure (msgs : List Message) (sel : List String)
    (model : String) (t : ℚ) (k : ℕ) (outs : String → String)
    (events : List StreamEvent) :
    (runTurn msgs sel model t k (fun c => Except.ok (outs c.model)) events).aggRequest
      = some ⟨model, msgs, (workingSet sel model).map outs, t, k⟩ := by
  have hf : fanOut (fun c => Except.ok (outs c.model))
      (buildFanOutData msgs (workingSet sel model)) t k
        = Except.ok ((workingSet sel model).map outs) := by
    rw [fanOut_pure]
    simp [buildFanOutData, List.map_map, Function.comp_def]
  rcases hc : consumeStream events "" 0 with ⟨r, n⟩
  cases r <;> simp [runTurn, hf, hc]

/-- C4: every exit path of a turn (success or failure) signals timer
cancellation and joins the timer task; the timer machine reaches its
terminated state within one polling interval of the signal (no new
sleep from two steps after `stopAt`, terminated from three steps after),
and once it is terminated — which is what the join waits for — it never
again performs a `SharedValue` write step. -/
theorem timer_stop_join_on_all_paths (msgs : List Message) (sel : List String)
    (model : String) (t : ℚ) (k : ℕ) (oracle : RefCall → Except String String)
    (events : List StreamEvent) (stopAt : ℕ) :
    (runTurn msgs sel model t k oracle events).stopSignaled = true
    ∧ (runTurn msgs sel model t k oracle events).joined = true
    ∧ (∀ n, stopAt + 3 ≤ n → timerAt stopAt n = TimerPC.done)
    ∧ (∀ n, stopAt + 2 ≤ n → timerAt stopAt n ≠ TimerPC.sleeping)
    ∧ (∀ n m, timerAt stopAt n = TimerPC.done → n ≤ m →
        timerAt stopAt m ≠ TimerPC.emit) := by
  refine ⟨(runTurn_stop_join msgs sel model t k oracle events).1,
    (runTurn_stop_join msgs sel model t k oracle events).2,
    fun n h => timerAt_done_after stopAt n h,
    fun n h => timerAt_ne_sleeping stopAt n h,
    fun n m hdone hnm => ?_⟩
  obtain ⟨j, rfl⟩ : ∃ j, m = n + j := ⟨m - n, by omega⟩
  rw [timerAt_done_mono stopAt n hdone j]
  simp

theorem timer_stop_join_on_all_paths_witness :
    (runTurn [] ["M1"] "M2" 0 1 (fun _ => Except.ok "r") []).stopSignaled = true
    ∧ timerAt 2 5 = TimerPC.done :=
  ⟨(timer_stop_join_on_all_paths [] ["M1"] "M2" 0 1 (fun _ => Except.ok "r") [] 2).1,
   (timer_stop_join_on_all_paths [] ["M1"] "M2" 0 1
      (fun _ => Except.ok "r") [] 2).2.2.1 5 (by omega)⟩

/-- C6: aggregation-request construction is deterministic: two session
states agreeing on the conversation and on the selected reference
models (whatever their other fields) yield the identical request for the
same aggregator, sampling parameters and per-model reference outputs;
and the request `runTurn` actually presents to the aggregator is exactly
the one this builder constructs. -/
theorem aggregation_request_deterministic (s₁ s₂ : SessionState) (model : String)
    (t : ℚ) (k : ℕ) (outs : String → String)
    (hmsg : s₁.messages = s₂.messages)
    (hsel : s₁.selectedModels = s₂.selectedModels) :
    buildAggRequest s₁ model t k outs = buildAggRequest s₂ model t k outs
    ∧ ∀ events, (runTurn s₁.messages s₁.selectedModels model t k
        (fun c => Except.ok (outs c.model)) events).aggRequest
      = some (buildAggRequest s₁ model t k outs) := by
  constructor
  · simp [buildAggRequest, hmsg, hsel]
  · intro events
    rw [runTurn_aggRequest_pure]
    rfl

theorem aggregation_request_deterministic_witness :
    buildAggRequest ⟨some "a@b.c", "p1", [], [⟨"user", "hi"⟩], ["M1", "M2"]⟩
        "M3" 0 1 (fun m => m)
      = buildAggRequest ⟨none, "p2", [[⟨"user", "x"⟩]], [⟨"user", "hi"⟩], ["M1", "M2"]⟩
        "M3" 0 1 (fun m => m) :=
  (aggregation_request_deterministic
    ⟨some "a@b.c", "p1", [], [⟨"user", "hi"⟩], ["M1", "M2"]⟩
    ⟨none, "p2", [[⟨"user", "x"⟩]], [⟨"user", "hi"⟩], ["M1", "M2"]⟩
    "M3" 0 1 (fun m => m) rfl rfl).1

/-- C7: over one turn, the values the timer task writes to the shared
cell form a monotonically non-decreasing sequence (assuming the wall
clock it samples is monotone), and the timer task is the only writer:
the turn controller's own operations on the cell are all reads. -/
theorem timer_writes_monotone_single_writer (clock : ℕ → ℚ) (hclock : Monotone clock)
    (stopAt : ℕ) (msgs : List Message) (sel : List String) (model : String)
    (t : ℚ) (k : ℕ) (oracle : RefCall → Except String String)
    (events : List StreamEvent) :
    List.Chain' (· ≤ ·) (timerWrites clock stopAt)
    ∧ ∀ op ∈ (runTurn msgs sel model t k oracle events).sharedOps, op = SVOp.get := by
  refine ⟨?_, runTurn_sharedOps_get msgs sel model t k oracle events⟩
  rw [timerWrites]
  refine List.Pairwise.chain' ?_
  refine List.Pairwise.map (timerWriteValue clock)
    (fun a b hab => sub_le_sub_right (hclock (Nat.le_of_lt hab)) (clock 0)) ?_
  exact (List.pairwise_lt_range (stopAt + 1)).filter _

theorem timer_writes_monotone_single_writer_witness :
    List.Chain' (· ≤ ·) (timerWrites (fun n => (n : ℚ)) 0) :=
  (timer_writes_monotone_single_writer (fun n => (n : ℚ))
    (fun _ _ h => Nat.cast_le.mpr h) 0 [] [] "M" 0 1 (fun _ => Except.ok "") []).1

/-- C8: for the shared cell, `get` returns the value passed to the most
recent `set` (or the initial value if none occurred), over any sequence
of atomic operations — the sequences the common lock admits. -/
theorem sharedValue_get_returns_last_set (s : SharedValue) (ops : List SVOp) :
    (applyOps s ops).get = (mostRecentSet ops).getD s.get := by
  induction ops generalizing s with
  | nil => rfl
  | cons op rest ih =>
    cases op with
    | set v =>
      rw [show applyOps s (SVOp.set v :: rest) = applyOps (s.set v) rest from rfl,
        ih, mostRecentSet_cons]
      cases h : mostRecentSet rest <;>
        simp [SharedValue.get, SharedValue.set, Option.or]
    | get =>
      rw [show applyOps s (SVOp.get :: rest) = applyOps s rest from rfl,
        ih, mostRecentSet_cons]
      cases h : mostRecentSet rest <;> simp [Option.or]

/-- C9: if any stream chunk's delta content is `None`, the string
concatenation raises a `TypeError`, the turn's handler reports it, and
the conversation is left unchanged — the turn becomes a failure rather
than a partial answer. -/
theorem none_chunk_fails_whole_turn (msgs : List Message) (sel : List String)
    (model : String) (t : ℚ) (k : ℕ) (oracle : RefCall → Except String String)
    (refs : List String) (pre post : List StreamEvent)
    (hfan : fanOut oracle (buildFanOutData msgs (workingSet sel model)) t k
      = Except.ok refs)
    (hpre : ∀ e ∈ pre, ∃ s, e = StreamEvent.chunk (some s)) :
    (runTurn msgs sel model t k oracle
        (pre ++ StreamEvent.chunk none :: post)).errorReported
      = some (errorNotice typeErrorMsg)
    ∧ (runTurn msgs sel model t k oracle
        (pre ++ StreamEvent.chunk none :: post)).messages = msgs := by
  have hc := consumeStream_hits_none pre post "" 0 hpre
  constructor <;> simp [runTurn, hfan, hc]

theorem none_chunk_fails_whole_turn_witness :
    (runTurn [⟨"user", "q"⟩] ["M1"] "M3" 0 1 (fun _ => Except.ok "out")
        ([StreamEvent.chunk (some "par")] ++ StreamEvent.chunk none :: [])).errorReported
      = some (errorNotice typeErrorMsg) :=
  (none_chunk_fails_whole_turn [⟨"user", "q"⟩] ["M1"] "M3" 0 1
    (fun _ => Except.ok "out") ["out"] [StreamEvent.chunk (some "par")] [] rfl
    (fun _ he => ⟨"par", List.mem_singleton.mp he⟩)).1

/-- C10: the snapshot saved at the first user message shares its message
objects with the live conversation (it stores the same addresses), so
after `Update System Instructions` mutates the system message in place,
every saved snapshot whose system message is that shared object shows
the new combined prompt. -/
theorem snapshot_shares_system_message_object (s : Session)
    (prompt userPrompt : String) (a0 : Addr) (rest : List Addr)
    (hmsgs : s.messages = a0 :: rest) :
    (saveFirstQuestion s prompt).conversations.getLast? = some ⟨prompt, a0 :: rest⟩
    ∧ ((updateSystemInstructions (saveFirstQuestion s prompt) userPrompt).heap a0).content
        = combinedPrompt userPrompt
    ∧ ∀ conv ∈ (updateSystemInstructions (saveFirstQuestion s prompt)
          userPrompt).conversations,
        ∀ b l, conv.messages = b :: l → b = a0 →
          ((updateSystemInstructions (saveFirstQuestion s prompt) userPrompt).heap b).content
            = combinedPrompt userPrompt := by
  have hhead : (saveFirstQuestion s prompt).messages.head? = some a0 := by
    simp [saveFirstQuestion, hmsgs]
  refine ⟨?_, ?_, ?_⟩
  · simp [saveFirstQuestion, hmsgs, List.getLast?_concat]
  · simp [updateSystemInstructions, hhead]
  · intro conv _ b l _ hb
    subst hb
    simp [updateSystemInstructions, hhead]

theorem snapshot_shares_system_message_object_witness :
    ((updateSystemInstructions
        (saveFirstQuestion ⟨fun _ => ⟨"system", "orig"⟩, [0, 1], []⟩ "q")
        "extra").heap 0).content
      = combinedPrompt "extra" :=
  (snapshot_shares_system_message_object ⟨fun _ => ⟨"system", "orig"⟩, [0, 1], []⟩
    "q" "extra" 0 [1] rfl).2.1

end MoA
